import Mathlib

/-!
Verification of the Type effectiveness graph of `monstermaker_core`
(src/src/type.rs).

The Rust source defines `Type { name: String, effectivenesses:
RefCell<HashMap<HashableWeak<Type>, f32>> }` with three operations:

* `Type::new(name)` — a node with the given name and an empty map;
* `Type::add_effectiveness(&self, other, effectiveness)` — inserts or
  overwrites the entry keyed by `other`'s pointer identity
  (`HashableWeak::new(Rc::downgrade(other))`);
* `Type::effectiveness_of_type(&self, other)` — `get` on that key,
  `unwrap_or(&1.0)`.

Embedding choices:
* Node identity (`Rc` pointer identity, which is exactly what
  `HashableWeak` hashes and compares by) is modelled as `Nat`.
* The world of live nodes is a function `TypeId → TypeNode`; a call
  `a.add_effectiveness(&b, m)` becomes an update of the world at `a`.
* The `HashMap` is modelled as an association list with `HashMap`'s
  insert semantics (replace the value when the key is present,
  otherwise add the entry); the source never iterates the map, so the
  list order is unobservable.
* The multiplier type `f32` is modelled as `ℚ`: the source only stores,
  retrieves and compares multipliers — no floating-point arithmetic is
  ever performed on them — so every program behaviour at issue is
  exact-value behaviour.
* A second, state-passing model (`WorldSt`) additionally tracks the
  `RefCell` borrow flag of each node, with `borrow_mut`/`borrow`
  returning `none` on the conflicts that would panic at run time; the
  borrow guards in the source are temporaries dropped at the end of the
  statement that creates them, which the model mirrors by releasing the
  flag before the operation returns.
-/

namespace MonsterCore

/-- Node identity: stands for the `Rc<Type>` allocation identity, which is
what `HashableWeak` hashes and compares by. -/
abbrev TypeId := Nat

/-- Lookup in the association-list model of
`HashMap<HashableWeak<Type>, f32>`. -/
def mapGet? : List (TypeId × ℚ) → TypeId → Option ℚ
  | [], _ => none
  | p :: rest, k => if p.1 = k then some p.2 else mapGet? rest k

/-- `HashMap::insert`: replaces the value when the key is present,
otherwise adds the entry. -/
def mapInsert : List (TypeId × ℚ) → TypeId → ℚ → List (TypeId × ℚ)
  | [], k, v => [(k, v)]
  | p :: rest, k, v => if p.1 = k then (k, v) :: rest else p :: mapInsert rest k v

/-- The `Type` struct of src/src/type.rs (the identifier `Type` is
reserved in Lean): a public `name` and the private `effectivenesses`
map, keyed by target node identity. -/
structure TypeNode where
  name : String
  effectivenesses : List (TypeId × ℚ)
deriving DecidableEq, Repr

/-- `Type::new`: the given name and an empty effectiveness map. -/
def TypeNode.new (name : String) : TypeNode :=
  { name := name, effectivenesses := [] }

/-- The live nodes, indexed by identity. -/
def World := TypeId → TypeNode

/-- `Type::add_effectiveness`: `self.effectivenesses.borrow_mut()
.insert(HashableWeak::new(Rc::downgrade(&other)), effectiveness)` —
updates node `self`'s map at key `other`; every other node is
untouched. -/
def add_effectiveness (w : World) (self other : TypeId) (effectiveness : ℚ) : World :=
  fun i =>
    if i = self then
      { w self with
        effectivenesses := mapInsert (w self).effectivenesses other effectiveness }
    else w i

/-- `Type::effectiveness_of_type`: `self.effectivenesses.borrow()
.get(&HashableWeak::new(Rc::downgrade(&other))).unwrap_or(&1.0).clone()`. -/
def effectiveness_of_type (w : World) (self other : TypeId) : ℚ :=
  (mapGet? (w self).effectivenesses other).getD 1

/-- A batch of `add_effectiveness` calls `(self, other, multiplier)`,
applied left to right. -/
def applyAdds (w : World) : List (TypeId × TypeId × ℚ) → World
  | [] => w
  | p :: rest => applyAdds (add_effectiveness w p.1 p.2.1 p.2.2) rest

/-! ## `RefCell` borrow-flag model -/

/-- The dynamic borrow state of a `RefCell`. -/
inductive Borrow where
  | free : Borrow
  | shared : Nat → Borrow
  | exclusive : Borrow
deriving DecidableEq, Repr

/-- A `Type` node together with the borrow flag of its
`effectivenesses` `RefCell`. -/
structure TypeNodeSt where
  name : String
  borrow : Borrow
  effectivenesses : List (TypeId × ℚ)
deriving DecidableEq, Repr

/-- The live nodes with borrow flags. -/
def WorldSt := TypeId → TypeNodeSt

/-- `RefCell::borrow_mut`: succeeds only when no borrow is
outstanding; otherwise the run-time borrow check panics (`none`). -/
def borrowMut (n : TypeNodeSt) : Option TypeNodeSt :=
  match n.borrow with
  | Borrow.free => some { n with borrow := Borrow.exclusive }
  | _ => none

/-- `RefCell::borrow`: succeeds unless an exclusive borrow is
outstanding; otherwise panics (`none`). -/
def borrowShared (n : TypeNodeSt) : Option TypeNodeSt :=
  match n.borrow with
  | Borrow.free => some { n with borrow := Borrow.shared 1 }
  | Borrow.shared k => some { n with borrow := Borrow.shared (k + 1) }
  | Borrow.exclusive => none

/-- `Type::add_effectiveness` with the borrow flag tracked: the
`RefMut` guard is a temporary of the single `insert` statement, so the
flag is taken and released within the call. -/
def addEffectivenessSt (w : WorldSt) (self other : TypeId) (m : ℚ) : Option WorldSt :=
  match borrowMut (w self) with
  | none => none
  | some borrowed =>
      some (fun i =>
        if i = self then
          { borrowed with
            effectivenesses := mapInsert borrowed.effectivenesses other m,
            borrow := Borrow.free }
        else w i)

/-- `Type::effectiveness_of_type` with the borrow flag tracked: the
`Ref` guard is a temporary of the single lookup expression; the flag is
restored and the map is untouched. -/
def effectivenessOfTypeSt (w : WorldSt) (self other : TypeId) : Option (ℚ × WorldSt) :=
  match borrowShared (w self) with
  | none => none
  | some borrowed =>
      some ((mapGet? borrowed.effectivenesses other).getD 1,
        fun i =>
          if i = self then { borrowed with borrow := (w self).borrow } else w i)

/-- One public-interface call on the effectiveness graph. -/
inductive Op where
  | add : TypeId → TypeId → ℚ → Op
  | lookup : TypeId → TypeId → Op
deriving DecidableEq, Repr

/-- Run a sequence of calls, propagating a borrow-check panic. -/
def runOps (w : WorldSt) : List Op → Option WorldSt
  | [] => some w
  | Op.add s t m :: rest =>
      match addEffectivenessSt w s t m with
      | none => none
      | some w2 => runOps w2 rest
  | Op.lookup s t :: rest =>
      match effectivenessOfTypeSt w s t with
      | none => none
      | some p => runOps p.2 rest

/-- No node's `RefCell` has an outstanding borrow: the state between
statements in straight-line single-threaded code, since every borrow
guard in the source is a temporary of a single statement. -/
def allFreeSt (w : WorldSt) : Prop :=
  ∀ i, (w i).borrow = Borrow.free

/-! ## Concrete worlds used by the witnesses -/

/-- An example display name. -/
def exName : String := "ex"

/-- A world of fresh nodes (all sharing one display name, which `Type`
explicitly permits). -/
def wEx : World := fun _ => TypeNode.new exName

/-- The same world in the borrow-flag model: all flags free. -/
def wStEx : WorldSt :=
  fun _ => { name := exName, borrow := Borrow.free, effectivenesses := [] }

/-! ## Map lemmas -/

theorem mapGet?_insert_self (l : List (TypeId × ℚ)) (k : TypeId) (v : ℚ) :
    mapGet? (mapInsert l k v) k = some v := by
  induction l with
  | nil => simp [mapInsert, mapGet?]
  | cons p rest ih =>
      by_cases h : p.1 = k
      · simp [mapInsert, h, mapGet?]
      · simp [mapInsert, h, mapGet?, ih]

theorem mapGet?_insert_ne (l : List (TypeId × ℚ)) (kIns kGet : TypeId) (v : ℚ)
    (h : kGet ≠ kIns) :
    mapGet? (mapInsert l kIns v) kGet = mapGet? l kGet := by
  have h2 : ¬kIns = kGet := fun e => h e.symm
  induction l with
  | nil => simp [mapInsert, mapGet?, h2]
  | cons p rest ih =>
      by_cases hp : p.1 = kIns
      · simp [mapInsert, hp, mapGet?, h2]
      · simp [mapInsert, hp, mapGet?, ih]

theorem mapGet?_insert (l : List (TypeId × ℚ)) (kIns kGet : TypeId) (v : ℚ) :
    mapGet? (mapInsert l kIns v) kGet
      = if kGet = kIns then some v else mapGet? l kGet := by
  by_cases h : kGet = kIns
  · subst h; simp [mapGet?_insert_self]
  · simp [h, mapGet?_insert_ne l kIns kGet v h]

/-! ## World lemmas -/

theorem add_effectiveness_self_node (w : World) (A B : TypeId) (m : ℚ) :
    (add_effectiveness w A B m) A
      = { w A with effectivenesses := mapInsert (w A).effectivenesses B m } := by
  simp [add_effectiveness]

theorem add_effectiveness_other_node (w : World) (A B n : TypeId) (m : ℚ)
    (h : n ≠ A) : (add_effectiveness w A B m) n = w n := by
  simp [add_effectiveness, h]

theorem eff_add_same (w : World) (A B : TypeId) (m : ℚ) :
    effectiveness_of_type (add_effectiveness w A B m) A B = m := by
  simp [effectiveness_of_type, add_effectiveness, mapGet?_insert_self]

theorem eff_add_frame (w : World) (A B s t : TypeId) (m : ℚ)
    (h : ¬(s = A ∧ t = B)) :
    effectiveness_of_type (add_effectiveness w A B m) s t
      = effectiveness_of_type w s t := by
  by_cases hs : s = A
  · subst hs
    have ht : t ≠ B := fun e => h ⟨rfl, e⟩
    simp [effectiveness_of_type, add_effectiveness,
      mapGet?_insert_ne (w s).effectivenesses B t m ht]
  · simp [effectiveness_of_type, add_effectiveness, hs]

theorem name_add (w : World) (A B n : TypeId) (m : ℚ) :
    ((add_effectiveness w A B m) n).name = (w n).name := by
  by_cases hn : n = A
  · subst hn; simp [add_effectiveness]
  · simp [add_effectiveness, hn]

theorem eff_applyAdds_frame (w : World) (A B : TypeId)
    (ops : List (TypeId × TypeId × ℚ))
    (h : ∀ p ∈ ops, ¬(p.1 = A ∧ p.2.1 = B)) :
    effectiveness_of_type (applyAdds w ops) A B = effectiveness_of_type w A B := by
  induction ops generalizing w with
  | nil => rfl
  | cons p rest ih =>
      have hrest : ∀ q ∈ rest, ¬(q.1 = A ∧ q.2.1 = B) :=
        fun q hq => h q (List.mem_cons_of_mem p hq)
      have hp : ¬(p.1 = A ∧ p.2.1 = B) := h p (List.mem_cons_self p rest)
      calc effectiveness_of_type (applyAdds (add_effectiveness w p.1 p.2.1 p.2.2) rest) A B
          = effectiveness_of_type (add_effectiveness w p.1 p.2.1 p.2.2) A B :=
            ih (add_effectiveness w p.1 p.2.1 p.2.2) hrest
        _ = effectiveness_of_type w A B := by
            rw [eff_add_frame w p.1 p.2.1 A B p.2.2]
            intro hc
            exact hp ⟨hc.1.symm ▸ rfl, hc.2.symm ▸ rfl⟩

/-! ## Borrow-flag model lemmas -/

theorem addSt_free (w : WorldSt) (s t : TypeId) (m : ℚ)
    (h : (w s).borrow = Borrow.free) :
    addEffectivenessSt w s t m
      = some (fun i =>
          if i = s then
            { name := (w s).name, borrow := Borrow.free,
              effectivenesses := mapInsert (w s).effectivenesses t m }
          else w i) := by
  simp [addEffectivenessSt, borrowMut, h]

theorem lookupSt_free (w : WorldSt) (s t : TypeId)
    (h : (w s).borrow = Borrow.free) :
    effectivenessOfTypeSt w s t
      = some ((mapGet? (w s).effectivenesses t).getD 1, w) := by
  simp only [effectivenessOfTypeSt, borrowShared, h]
  refine congrArg some (congrArg _ ?_)
  funext i
  by_cases hi : i = s
  · subst hi; rw [if_pos rfl, ← h]
  · rw [if_neg hi]

theorem lookupSt_world (w : WorldSt) (s t : TypeId) (v : ℚ) (w2 : WorldSt)
    (h : effectivenessOfTypeSt w s t = some (v, w2)) : w2 = w := by
  unfold effectivenessOfTypeSt borrowShared at h
  cases hb : (w s).borrow with
  | free =>
      rw [hb] at h
      simp at h
      rw [← h.2]
      funext i
      by_cases hi : i = s
      · subst hi; rw [if_pos rfl, ← hb]
      · rw [if_neg hi]
  | shared k =>
      rw [hb] at h
      simp at h
      rw [← h.2]
      funext i
      by_cases hi : i = s
      · subst hi; rw [if_pos rfl, ← hb]
      · rw [if_neg hi]
  | exclusive =>
      rw [hb] at h
      simp at h

theorem addSt_preserves_free (w : WorldSt) (s t : TypeId) (m : ℚ) (w2 : WorldSt)
    (hfree : allFreeSt w) (h : addEffectivenessSt w s t m = some w2) :
    allFreeSt w2 := by
  rw [addSt_free w s t m (hfree s)] at h
  cases h
  intro i
  by_cases hi : i = s
  · subst hi; simp
  · simp [hi, hfree i]

theorem runOps_total (w : WorldSt) (ops : List Op) (hfree : allFreeSt w) :
    (runOps w ops).isSome = true := by
  induction ops generalizing w with
  | nil => rfl
  | cons op rest ih =>
      cases op with
      | add s t m =>
          rw [runOps, addSt_free w s t m (hfree s)]
          exact ih _ (addSt_preserves_free w s t m _ hfree
            (addSt_free w s t m (hfree s)))
      | lookup s t =>
          rw [runOps, lookupSt_free w s t (hfree s)]
          exact ih w hfree

/-! ## Claim theorems -/

/-- C1: when no relation has been set in either direction between nodes
A and B, `effectiveness_of_type` returns the default 1 in both
directions; a node built by `Type::new` has an empty relation set and
every lookup against a fresh node returns 1; and a lookup on any valid
pair of handles succeeds (never fails) from the borrow-free states of
straight-line code. -/
theorem effectiveness_default_one :
    (∀ (w : World) (A B : TypeId),
        mapGet? (w A).effectivenesses B = none →
        mapGet? (w B).effectivenesses A = none →
        effectiveness_of_type w A B = 1 ∧ effectiveness_of_type w B A = 1) ∧
    (∀ nm : String, (TypeNode.new nm).effectivenesses = []) ∧
    (∀ (w : World) (A : TypeId) (nm : String), w A = TypeNode.new nm →
        ∀ B, effectiveness_of_type w A B = 1) ∧
    (∀ (w : WorldSt) (s t : TypeId), allFreeSt w →
        (effectivenessOfTypeSt w s t).isSome = true) := by
  refine ⟨?_, ?_, ?_, ?_⟩
  · intro w A B hAB hBA
    exact ⟨by simp [effectiveness_of_type, hAB], by simp [effectiveness_of_type, hBA]⟩
  · intro nm; rfl
  · intro w A nm hA B
    simp [effectiveness_of_type, hA, TypeNode.new, mapGet?]
  · intro w s t hfree
    rw [lookupSt_free w s t (hfree s)]
    rfl

/-- Witness for C1: in a world of fresh nodes, both lookups between
nodes 0 and 1 return the default 1. -/
theorem effectiveness_default_one_witness :
    effectiveness_of_type wEx 0 1 = 1 ∧ effectiveness_of_type wEx 1 0 = 1 :=
  effectiveness_default_one.1 wEx 0 1 rfl rfl

/-- C2: after `add_effectiveness(A, B, m)`, looking up (A, B) yields m;
this is preserved by any later batch of `add_effectiveness` calls that
do not touch the pair (A, B); and re-setting the pair overwrites the
previous value with no accumulation (2 then 1/2 yields 1/2). -/
theorem set_effectiveness_retrieves :
    (∀ (w : World) (A B : TypeId) (m : ℚ),
        effectiveness_of_type (add_effectiveness w A B m) A B = m) ∧
    (∀ (w : World) (A B : TypeId) (m : ℚ) (ops : List (TypeId × TypeId × ℚ)),
        (∀ p ∈ ops, ¬(p.1 = A ∧ p.2.1 = B)) →
        effectiveness_of_type (applyAdds (add_effectiveness w A B m) ops) A B = m) ∧
    (∀ (w : World) (A B : TypeId),
        effectiveness_of_type
          (add_effectiveness (add_effectiveness w A B 2) A B (1 / 2)) A B = 1 / 2) := by
  refine ⟨eff_add_same, ?_, ?_⟩
  · intro w A B m ops h
    rw [eff_applyAdds_frame _ A B ops h, eff_add_same]
  · intro w A B
    exact eff_add_same _ A B (1 / 2)

/-- Witness for C2: set (0, 1) to 3, then set the unrelated pair
(2, 3); the lookup of (0, 1) still yields 3. -/
theorem set_effectiveness_retrieves_witness :
    effectiveness_of_type (applyAdds (add_effectiveness wEx 0 1 3) [(2, 3, 5)]) 0 1 = 3 :=
  set_effectiveness_retrieves.2.1 wEx 0 1 3 [(2, 3, 5)] (by decide)

/-- C3: `add_effectiveness(A, B, m)` leaves every pair other than
(A, B) — the reverse pair included — with its previous lookup result,
changes no node's name, stores the multiplier verbatim (no validation
or clamping), and `effectiveness_of_type` leaves the whole state
unchanged whenever it returns. -/
theorem add_effectiveness_frame :
    (∀ (w : World) (A B s t : TypeId) (m : ℚ), ¬(s = A ∧ t = B) →
        effectiveness_of_type (add_effectiveness w A B m) s t
          = effectiveness_of_type w s t) ∧
    (∀ (w : World) (A B n : TypeId) (m : ℚ),
        ((add_effectiveness w A B m) n).name = (w n).name) ∧
    (∀ (w : World) (A B : TypeId) (m : ℚ),
        mapGet? ((add_effectiveness w A B m) A).effectivenesses B = some m) ∧
    (∀ (w : WorldSt) (s t : TypeId) (v : ℚ) (w2 : WorldSt),
        effectivenessOfTypeSt w s t = some (v, w2) → w2 = w) := by
  refine ⟨eff_add_frame, name_add, ?_, lookupSt_world⟩
  intro w A B m
  simp [add_effectiveness, mapGet?_insert_self]

/-- Witness for C3: setting (0, 1) leaves the reverse lookup (1, 0)
unchanged. -/
theorem add_effectiveness_frame_witness :
    effectiveness_of_type (add_effectiveness wEx 0 1 7) 1 0
      = effectiveness_of_type wEx 1 0 :=
  add_effectiveness_frame.1 wEx 0 1 1 0 7 (by decide)

/-- C4: self-relations are not special-cased: in every world,
`add_effectiveness(A, A, m)` followed by `effectiveness_of_type(A, A)`
yields m. -/
theorem self_effectiveness_works (w : World) (A : TypeId) (m : ℚ) :
    effectiveness_of_type (add_effectiveness w A A m) A A = m :=
  eff_add_same w A A m

/-- C5: two distinct nodes with equal names are independent relation
keys: setting a relation on A changes nothing about B (neither its node
nor any lookup from it), and setting a relation targeting A does not
change any lookup targeting B. -/
theorem name_collision_independence :
    ∀ (w : World) (A B : TypeId) (m : ℚ),
      (w A).name = (w B).name → A ≠ B →
      (∀ t, (add_effectiveness w A t m) B = w B) ∧
      (∀ t u, effectiveness_of_type (add_effectiveness w A t m) B u
          = effectiveness_of_type w B u) ∧
      (∀ s, effectiveness_of_type (add_effectiveness w s A m) s B
          = effectiveness_of_type w s B) := by
  intro w A B m _ hAB
  refine ⟨?_, ?_, ?_⟩
  · intro t
    exact add_effectiveness_other_node w A t B m (Ne.symm hAB)
  · intro t u
    exact eff_add_frame w A t B u m (fun hc => hAB hc.1.symm)
  · intro s
    exact eff_add_frame w s A s B m (fun hc => hAB hc.2.symm)

/-- Witness for C5: nodes 0 and 1 share the display name; setting a
relation on node 0 leaves node 1's lookups unchanged. -/
theorem name_collision_independence_witness :
    effectiveness_of_type (add_effectiveness wEx 0 2 5) 1 3
      = effectiveness_of_type wEx 1 3 :=
  (name_collision_independence wEx 0 1 5 rfl (by decide)).2.1 2 3

/-- C6: no operation can fail: `Type::new` yields a node for every name
string, `add_effectiveness` stores any multiplier — zero and negative
values included — verbatim with no validation, and from the borrow-free
states of straight-line code both operations succeed on any valid pair
of handles. -/
theorem operations_never_fail :
    (∀ nm : String,
        (TypeNode.new nm).name = nm ∧ (TypeNode.new nm).effectivenesses = []) ∧
    (∀ (w : World) (A B : TypeId) (m : ℚ),
        mapGet? ((add_effectiveness w A B m) A).effectivenesses B = some m) ∧
    (∀ (w : WorldSt) (s t : TypeId) (m : ℚ), allFreeSt w →
        (addEffectivenessSt w s t m).isSome = true
          ∧ (effectivenessOfTypeSt w s t).isSome = true) := by
  refine ⟨fun nm => ⟨rfl, rfl⟩, ?_, ?_⟩
  · intro w A B m
    simp [add_effectiveness, mapGet?_insert_self]
  · intro w s t m hfree
    constructor
    · rw [addSt_free w s t m (hfree s)]; rfl
    · rw [lookupSt_free w s t (hfree s)]; rfl

/-- Witness for C6: both operations succeed on concrete handles, with a
negative multiplier. -/
theorem operations_never_fail_witness :
    (addEffectivenessSt wStEx 0 1 (-2)).isSome = true
      ∧ (effectivenessOfTypeSt wStEx 0 1).isSome = true :=
  operations_never_fail.2.2 wStEx 0 1 (-2) (fun _ => rfl)

/-- C7: in the single-threaded model, no sequence of
`add_effectiveness` and `effectiveness_of_type` calls starting from a
borrow-free state ever hits a conflicting `RefCell` borrow: every call
borrows for the span of its one statement only, so mutation through a
shared handle always succeeds. -/
theorem shared_handle_no_borrow_conflict :
    ∀ (w : WorldSt) (ops : List Op), allFreeSt w → (runOps w ops).isSome = true :=
  fun w ops h => runOps_total w ops h

/-- Witness for C7: a concrete interleaving of adds and lookups,
including a repeated pair, runs to completion. -/
theorem shared_handle_no_borrow_conflict_witness :
    (runOps wStEx
      [Op.add 0 1 2, Op.lookup 0 1, Op.add 0 1 3, Op.add 0 0 4, Op.lookup 1 0]).isSome
      = true :=
  shared_handle_no_borrow_conflict wStEx
    [Op.add 0 1 2, Op.lookup 0 1, Op.add 0 1 3, Op.add 0 0 4, Op.lookup 1 0]
    (fun _ => rfl)

/-- C9: the relation store grows monotonically: a lookup never changes
any node's stored map (a default is never materialized),
`add_effectiveness` changes no entry other than its own key, and an
entry present before an `add_effectiveness` is still present after
it — no operation deletes a stored relation. -/
theorem relation_store_monotone :
    (∀ (w : WorldSt) (s t : TypeId) (v : ℚ) (w2 : WorldSt),
        effectivenessOfTypeSt w s t = some (v, w2) →
        ∀ i, (w2 i).effectivenesses = (w i).effectivenesses) ∧
    (∀ (w : World) (A B n k : TypeId) (m : ℚ), ¬(n = A ∧ k = B) →
        mapGet? ((add_effectiveness w A B m) n).effectivenesses k
          = mapGet? (w n).effectivenesses k) ∧
    (∀ (w : World) (A B n k : TypeId) (m v : ℚ),
        mapGet? (w n).effectivenesses k = some v →
        ∃ v2, mapGet? ((add_effectiveness w A B m) n).effectivenesses k = some v2) := by
  refine ⟨?_, ?_, ?_⟩
  · intro w s t v w2 h i
    rw [lookupSt_world w s t v w2 h]
  · intro w A B n k m h
    by_cases hn : n = A
    · subst hn
      have hk : k ≠ B := fun e => h ⟨rfl, e⟩
      simp [add_effectiveness, mapGet?_insert_ne _ B k m hk]
    · simp [add_effectiveness, hn]
  · intro w A B n k m v hv
    by_cases hn : n = A
    · subst hn
      by_cases hk : k = B
      · subst hk
        exact ⟨m, by simp [add_effectiveness, mapGet?_insert_self]⟩
      · exact ⟨v, by simp [add_effectiveness, mapGet?_insert_ne _ B k m hk, hv]⟩
    · exact ⟨v, by simp [add_effectiveness, hn, hv]⟩

/-- Witness for C9: the entry (0, 1) ↦ 4 survives a later
`add_effectiveness` on the different pair (0, 2). -/
theorem relation_store_monotone_witness :
    ∃ v2,
      mapGet?
        ((add_effectiveness (add_effectiveness wEx 0 1 4) 0 2 9) 0).effectivenesses 1
        = some v2 :=
  relation_store_monotone.2.2 (add_effectiveness wEx 0 1 4) 0 2 0 1 9 4 (by decide)

/-- C10: `effectiveness_of_type` depends only on the source node's
stored entry for the target's identity: two states agreeing on that one
entry give the same result, and two states with identical relation maps
but arbitrarily different names give the same result. -/
theorem lookup_depends_only_on_entry :
    (∀ (w1 w2 : World) (s t : TypeId),
        mapGet? (w1 s).effectivenesses t = mapGet? (w2 s).effectivenesses t →
        effectiveness_of_type w1 s t = effectiveness_of_type w2 s t) ∧
    (∀ (w1 w2 : World) (s t : TypeId),
        (∀ i, (w1 i).effectivenesses = (w2 i).effectivenesses) →
        effectiveness_of_type w1 s t = effectiveness_of_type w2 s t) := by
  constructor
  · intro w1 w2 s t h
    simp [effectiveness_of_type, h]
  · intro w1 w2 s t h
    simp [effectiveness_of_type, h s]

/-- Witness for C10: a state with an extra relation on the unrelated
pair (2, 3) gives the same (0, 1) lookup as the fresh state. -/
theorem lookup_depends_only_on_entry_witness :
    effectiveness_of_type wEx 0 1
      = effectiveness_of_type (add_effectiveness wEx 2 3 5) 0 1 :=
  lookup_depends_only_on_entry.1 wEx (add_effectiveness wEx 2 3 5) 0 1 (by decide)

end MonsterCore
